import Mathlib

/-!
Verification development for the ACI knowledge-graph engine.

The data schemas (`AtomicUnit`, `Relation`, `AvailableAction`, the response
models and `get_unit_actions`) are embedded from `src/src/model.py`.
Pydantic construction of a model is embedded as a function returning
`Except EngineError _`: the only constraints pydantic enforces there are the
`Literal` relation type and the `ge/le` bounds on `confidence`; required
string fields accept the empty string.

The engine operations (`ingest_hypothesis`, `connect_propositions`,
`find_contradictions`) live in `src/server.py`, which is not part of the
sources available here; they are modelled from the specification (sections
4.4, 4.5 and 4.8) and are marked `Modelled from the spec:` below.

Machine floats of the source are modelled as rationals; timestamps as
naturals; the uuid generator and the clock as explicit parameters.
-/

/-- Error taxonomy of the engine (spec section 7): validation failures and
missing-reference failures are the only ones the claims below need. -/
inductive EngineError where
  | validationFailure (msg : String)
  | notFoundFailure (msg : String)
deriving DecidableEq, Repr

/-- Embeds `RelationType = Literal["supports", "refutes", "extends",
"implies", "contradicts"]` from `src/src/model.py`. -/
inductive RelationType where
  | supports
  | refutes
  | «extends»
  | implies
  | contradicts
deriving DecidableEq, Repr

/-- Pydantic validation of a string against the `RelationType` literal:
`some` on exactly the five recognized spellings, `none` otherwise. -/
def RelationType.ofString (s : String) : Option RelationType :=
  if s = "supports" then some RelationType.supports
  else if s = "refutes" then some RelationType.refutes
  else if s = "extends" then some RelationType.«extends»
  else if s = "implies" then some RelationType.implies
  else if s = "contradicts" then some RelationType.contradicts
  else none

/-- Embeds `class AtomicUnit(BaseModel)` from `src/src/model.py`:
id, content, optional source, confidence, creation timestamp, vector. -/
structure AtomicUnit where
  id : String
  content : String
  source_doi : Option String
  confidence : ℚ
  created_at : Nat
  vector : List ℚ
deriving DecidableEq, Repr

/-- Pydantic construction of an `AtomicUnit`. `id` and `created_at` stand
for the `uuid.uuid4()` / `datetime.now` default factories and are passed in
explicitly. `confidence` and `vector` are optional in the call: omitted
(`none`) they take the declared defaults `1.0` and `[]`. The only constraint
pydantic checks is `ge=0.0, le=1.0` on confidence; `content` is required but
its emptiness is not validated. -/
def mkAtomicUnit (id : String) (content : String) (source_doi : Option String)
    (confidence : Option ℚ) (created_at : Nat) (vector : Option (List ℚ)) :
    Except EngineError AtomicUnit :=
  let conf := confidence.getD 1
  if 0 ≤ conf ∧ conf ≤ 1 then
    Except.ok ⟨id, content, source_doi, conf, created_at, vector.getD []⟩
  else
    Except.error (EngineError.validationFailure "confidence must be in [0,1]")

/-- Embeds `class Relation(BaseModel)` from `src/src/model.py`:
source id, target id, typed kind, reasoning, creation timestamp. -/
structure Relation where
  source_id : String
  target_id : String
  type : RelationType
  reasoning : String
  created_at : Nat
deriving DecidableEq, Repr

/-- Pydantic construction of a `Relation`. The declared type of the `type`
field is the `Literal`, so construction validates the string against the
five recognized kinds and fails otherwise; no other constraint is checked:
in particular neither `source_id != target_id` nor non-emptiness of
`reasoning` is validated by the model. -/
def mkRelation (source_id : String) (target_id : String) (type_str : String)
    (reasoning : String) (created_at : Nat) : Except EngineError Relation :=
  match RelationType.ofString type_str with
  | some t => Except.ok ⟨source_id, target_id, t, reasoning, created_at⟩
  | none => Except.error (EngineError.validationFailure "type must be one of the recognized relation kinds")

/-- Embeds `class AvailableAction(BaseModel)` from `src/src/model.py`;
the `suggested_args` dict is modelled as an association list. -/
structure AvailableAction where
  tool : String
  description : String
  suggested_args : Option (List (String × String))
deriving DecidableEq, Repr

/-- Embeds `get_unit_actions` from `src/src/model.py`: the static list of
four follow-up actions suggested for a unit. -/
def get_unit_actions (unit_id : String) : List AvailableAction :=
  [ ⟨"connect_propositions", "Link this unit to another proposition",
      some [("id_a", unit_id)]⟩,
    ⟨"semantic_search", "Find related concepts", none⟩,
    ⟨"find_contradictions", "Check for conflicts with this claim", none⟩,
    ⟨"get_unit", "Get full details of this unit",
      some [("unit_id", unit_id)]⟩ ]

/-- Embeds `class ConflictResult(BaseModel)` from `src/src/model.py`. -/
structure ConflictResult where
  conflicting_unit : AtomicUnit
  relation : Option Relation
  explanation : String
deriving DecidableEq, Repr

/-- Embeds `class ConflictResponse(BaseModel)` from `src/src/model.py`. -/
structure ConflictResponse where
  claim : String
  conflicts_found : Bool
  conflicts : List ConflictResult
  available_actions : List AvailableAction
deriving DecidableEq, Repr

/-- C2: constructing an `AtomicUnit` rejects a supplied confidence outside
[0,1] with a validation error, accepts any confidence inside [0,1]
unchanged, and defaults confidence to exactly 1 when it is omitted. -/
theorem atomicUnit_confidence_validated (id content : String)
    (src : Option String) (t : Nat) (v : Option (List ℚ)) :
    (∀ c : ℚ, (c < 0 ∨ 1 < c) →
      mkAtomicUnit id content src (some c) t v =
        Except.error (EngineError.validationFailure "confidence must be in [0,1]")) ∧
    (∀ c : ℚ, 0 ≤ c → c ≤ 1 →
      ∃ u, mkAtomicUnit id content src (some c) t v = Except.ok u ∧
        u.confidence = c) ∧
    (∃ u, mkAtomicUnit id content src none t v = Except.ok u ∧
      u.confidence = 1) := by
  refine ⟨?_, ?_, ?_⟩
  · intro c hc
    unfold mkAtomicUnit
    simp only [Option.getD_some]
    rw [if_neg]
    rintro ⟨h0, h1⟩
    rcases hc with h | h
    · exact absurd h0 (not_le.mpr h)
    · exact absurd h1 (not_le.mpr h)
  · intro c h0 h1
    refine ⟨⟨id, content, src, c, t, v.getD []⟩, ?_, rfl⟩
    unfold mkAtomicUnit
    simp only [Option.getD_some]
    rw [if_pos ⟨h0, h1⟩]
  · refine ⟨⟨id, content, src, 1, t, v.getD []⟩, ?_, rfl⟩
    unfold mkAtomicUnit
    simp only [Option.getD_none]
    rw [if_pos ⟨zero_le_one, le_refl 1⟩]

/-- Witness for C2 at concrete inputs: confidence 2 is rejected and an
omitted confidence defaults to 1. -/
theorem atomicUnit_confidence_validated_witness :
    (mkAtomicUnit "i" "c" none (some 2) 0 none =
      Except.error (EngineError.validationFailure "confidence must be in [0,1]")) ∧
    (∃ u, mkAtomicUnit "i" "c" none none 0 none = Except.ok u ∧
      u.confidence = 1) :=
  ⟨(atomicUnit_confidence_validated "i" "c" none 0 none).1 2 (by norm_num),
   (atomicUnit_confidence_validated "i" "c" none 0 none).2.2⟩

/-- C3: constructing a `Relation` accepts the type string exactly when it is
one of the five recognized kinds, and fails with a validation error (so no
relation is produced) on any other string. -/
theorem relation_type_validated (a b ty r : String) (n : Nat) :
    (ty ∈ ["supports", "refutes", "extends", "implies", "contradicts"] →
      ∃ rel, mkRelation a b ty r n = Except.ok rel) ∧
    (ty ∉ ["supports", "refutes", "extends", "implies", "contradicts"] →
      mkRelation a b ty r n =
        Except.error (EngineError.validationFailure
          "type must be one of the recognized relation kinds")) := by
  constructor
  · intro hmem
    unfold mkRelation RelationType.ofString
    simp only [List.mem_cons, List.mem_singleton, List.not_mem_nil, or_false] at hmem
    rcases hmem with h | h | h | h | h <;> subst h <;> simp
  · intro hmem
    simp only [List.mem_cons, List.mem_singleton, List.not_mem_nil, or_false,
      not_or] at hmem
    obtain ⟨h1, h2, h3, h4, h5⟩ := hmem
    unfold mkRelation RelationType.ofString
    rw [if_neg h1, if_neg h2, if_neg h3, if_neg h4, if_neg h5]

/-- Witness for C3 at concrete inputs: "supports" is accepted, "banana" is
rejected. -/
theorem relation_type_validated_witness :
    (∃ rel, mkRelation "a" "b" "supports" "r" 0 = Except.ok rel) ∧
    (mkRelation "a" "b" "banana" "r" 0 =
      Except.error (EngineError.validationFailure
        "type must be one of the recognized relation kinds")) :=
  ⟨(relation_type_validated "a" "b" "supports" "r" 0).1 (by decide),
   (relation_type_validated "a" "b" "banana" "r" 0).2 (by decide)⟩

/-- Counterexample to C5 as stated: constructing a relation with empty
reasoning succeeds — the model does not validate reasoning non-emptiness. -/
theorem relation_empty_reasoning_accepted :
    mkRelation "a" "b" "supports" "" 0 =
      Except.ok ⟨"a", "b", RelationType.supports, "", 0⟩ := by
  rfl

/-- C5 amended: `reasoning` is a required field and is stored verbatim, but
its emptiness is not validated — construction with a recognized type
succeeds for every reasoning string, the empty string included, and the
stored relation carries exactly the supplied reasoning. -/
theorem relation_reasoning_stored_verbatim (a b r : String) (n : Nat) :
    ∃ rel, mkRelation a b "supports" r n = Except.ok rel ∧
      rel.reasoning = r := by
  exact ⟨⟨a, b, RelationType.supports, r, n⟩, rfl, rfl⟩

/-- Counterexample to C4 as stated: constructing an `AtomicUnit` with empty
content succeeds — the model does not validate content non-emptiness. -/
theorem atomicUnit_empty_content_accepted :
    mkAtomicUnit "i" "" none none 0 none =
      Except.ok ⟨"i", "", none, 1, 0, []⟩ := by
  rfl

/-- C10: constructing an `AtomicUnit` without supplying a vector succeeds
(with the default confidence) and yields the empty vector `[]`. -/
theorem atomicUnit_vector_defaults_empty (id content : String)
    (src : Option String) (t : Nat) :
    mkAtomicUnit id content src none t none =
      Except.ok ⟨id, content, src, 1, t, []⟩ := by
  unfold mkAtomicUnit
  simp only [Option.getD_none]
  rw [if_pos ⟨zero_le_one, le_refl 1⟩]

/-- C8: `get_unit_actions` is static and content-independent: for every
unit id it returns the same four tools in the same order with the same
fixed descriptions, and the suggested arguments are keyed off the given id
for `connect_propositions` and `get_unit` and absent for the others. -/
theorem get_unit_actions_static (uid : String) :
    (get_unit_actions uid).map AvailableAction.tool =
      ["connect_propositions", "semantic_search", "find_contradictions",
        "get_unit"] ∧
    (get_unit_actions uid).map AvailableAction.description =
      ["Link this unit to another proposition", "Find related concepts",
        "Check for conflicts with this claim", "Get full details of this unit"] ∧
    (get_unit_actions uid).map AvailableAction.suggested_args =
      [some [("id_a", uid)], none, none, some [("unit_id", uid)]] :=
  ⟨rfl, rfl, rfl⟩

/-- The engine's mutable state (spec sections 2 and 3): the unit store in
insertion order, the relation multigraph, the embedding index keyed by unit
id, the two independent idempotency maps, and a counter of calls made to
the external embedding provider. -/
structure EngineState where
  units : List AtomicUnit
  relations : List Relation
  index : List (String × List ℚ)
  ingest_keys : List (String × String)
  connect_keys : List (String × Relation)
  embed_calls : Nat
deriving DecidableEq, Repr

/-- The engine's initial state: everything empty. -/
def emptyEngine : EngineState :=
  ⟨[], [], [], [], [], 0⟩

/-- The `UnitStore.get`-style lookup: the first stored unit with the given id. -/
def lookupUnit (s : EngineState) (i : String) : Option AtomicUnit :=
  s.units.find? (fun u => u.id == i)

/-- Resolution of an ingestion idempotency key to the unit id it produced. -/
def lookupIngestKey (s : EngineState) (k : String) : Option String :=
  (s.ingest_keys.find? (fun p => p.1 == k)).map Prod.snd

/-- Resolution of a connection idempotency key to the relation it produced. -/
def lookupConnectKey (s : EngineState) (k : String) : Option Relation :=
  (s.connect_keys.find? (fun p => p.1 == k)).map Prod.snd

/-- The `EmbeddingIndex.upsert` operation (spec section 4.3): insert or replace the
vector stored for a unit id, keeping the position of a replaced entry. -/
def upsertVector : List (String × List ℚ) → String → List ℚ → List (String × List ℚ)
  | [], i, v => [(i, v)]
  | (j, w) :: rest, i, v =>
      if j == i then (i, v) :: rest else (j, w) :: upsertVector rest i v

/-- Modelled from the spec: `ingest_hypothesis` (spec section 4.4) lives in
`src/server.py`, which is not among the available sources. Steps, per the
spec: replay an already-seen idempotency key as a pure success returning the
recorded unit; otherwise reject empty content with a validation error, call
the embedding provider once, store the new unit (fresh id and timestamp are
passed in for `uuid.uuid4()` / `datetime.now`), upsert its vector into the
index, and record the idempotency mapping. `embed_calls` counts provider
calls. -/
def ingest_hypothesis (embed : String → List ℚ) (fresh_id : String)
    (now : Nat) (s : EngineState) (content : String) (source : Option String)
    (key : String) : Except EngineError (AtomicUnit × EngineState) :=
  match lookupIngestKey s key with
  | some uid =>
      match lookupUnit s uid with
      | some u => Except.ok (u, s)
      | none => Except.error (EngineError.notFoundFailure uid)
  | none =>
      if content = "" then
        Except.error (EngineError.validationFailure "content must be non-empty")
      else
        let vec := embed content
        let u : AtomicUnit := ⟨fresh_id, content, source, 1, now, vec⟩
        Except.ok (u,
          ⟨s.units ++ [u], s.relations, upsertVector s.index fresh_id vec,
           s.ingest_keys ++ [(key, fresh_id)], s.connect_keys,
           s.embed_calls + 1⟩)

/-- Modelled from the spec: `connect_propositions` (spec section 4.5) lives
in `src/server.py`, which is not among the available sources. Steps, per
the spec: replay an already-seen idempotency key; otherwise validate that
both endpoint ids exist (not-found error naming the missing id), that the
relation type is one of the five recognized kinds, and that
`id_a != id_b` (validation errors); then store the edge with `id_a` as
source and record the idempotency mapping. -/
def connect_propositions (now : Nat) (s : EngineState) (id_a id_b : String)
    (relation_type : String) (reasoning : String) (key : String) :
    Except EngineError (Relation × EngineState) :=
  match lookupConnectKey s key with
  | some r => Except.ok (r, s)
  | none =>
      if (lookupUnit s id_a).isNone then
        Except.error (EngineError.notFoundFailure id_a)
      else if (lookupUnit s id_b).isNone then
        Except.error (EngineError.notFoundFailure id_b)
      else
        match RelationType.ofString relation_type with
        | none => Except.error
            (EngineError.validationFailure "relation_type must be one of the recognized kinds")
        | some t =>
            if id_a = id_b then
              Except.error (EngineError.validationFailure "id_a must differ from id_b")
            else
              let r : Relation := ⟨id_a, id_b, t, reasoning, now⟩
              Except.ok (r,
                ⟨s.units, s.relations ++ [r], s.index, s.ingest_keys,
                 s.connect_keys ++ [(key, r)], s.embed_calls⟩)

/-- The two mutating operations of the engine, for stating state-evolution
invariants uniformly. -/
inductive Operation where
  | ingest (content : String) (source : Option String) (key : String)
  | connect (id_a id_b : String) (relation_type : String) (reasoning : String)
      (key : String)

/-- Runs one mutating operation on the state, discarding the returned
entity. -/
def applyOp (embed : String → List ℚ) (fresh_id : String) (now : Nat)
    (s : EngineState) : Operation → Except EngineError EngineState
  | Operation.ingest content source key =>
      (ingest_hypothesis embed fresh_id now s content source key).map Prod.snd
  | Operation.connect a b ty r key =>
      (connect_propositions now s a b ty r key).map Prod.snd

/-- Fixed candidate count of the contradiction detector (spec section 4.8). -/
def candidate_count : Nat := 20

/-- Fixed relevance threshold on the normalized similarity scale (spec
section 4.8). -/
def relevance_threshold : ℚ := 1 / 2

/-- The `EmbeddingIndex.nearest` query (spec section 4.3): score every indexed vector
against the query, order descending by score and truncate to `k`. The
similarity measure (normalized cosine in the spec) is passed in as `score`;
the stable sort keeps insertion (= creation) order on ties, matching the
spec's earlier-creation-first tie-break. -/
def nearest (score : List ℚ → List ℚ → ℚ) (index : List (String × List ℚ))
    (qv : List ℚ) (k : Nat) : List (String × ℚ) :=
  ((index.map (fun p => (p.1, score qv p.2))).insertionSort
    (fun x y => y.2 ≤ x.2)).take k

/-- Whether a relation kind is an opposing one (spec section 4.8). -/
def isOpposing (t : RelationType) : Bool :=
  t == RelationType.refutes || t == RelationType.contradicts

/-- First stored relation of an opposing kind connecting the candidate to
any other retained unit, in either direction (spec section 4.8 step 3). -/
def opposingBetween (rels : List Relation) (cand : String)
    (retained : List String) : Option Relation :=
  rels.find? (fun r => isOpposing r.type &&
    ((r.source_id == cand && r.target_id != cand && retained.contains r.target_id) ||
     (r.target_id == cand && r.source_id != cand && retained.contains r.source_id)))

/-- The generated conflict explanation, referencing the opposing relation's
stored reasoning text (spec section 4.8 step 3). -/
def conflict_explanation (r : Relation) : String :=
  "This unit is opposed by a stored relation: " ++ r.reasoning

/-- Modelled from the spec: `find_contradictions` (spec section 4.8) lives
in `src/server.py`, which is not among the available sources. Steps, per
the spec: reject an empty claim; embed it and retrieve the top
`candidate_count` hits; keep those whose score exceeds
`relevance_threshold`; report each surviving candidate that has an opposing
edge to another retained unit as a conflict annotated with that relation
and an explanation built from its reasoning. -/
def find_contradictions (embed : String → List ℚ)
    (score : List ℚ → List ℚ → ℚ) (s : EngineState) (claim : String) :
    Except EngineError ConflictResponse :=
  if claim = "" then
    Except.error (EngineError.validationFailure "claim must be non-empty")
  else
    let qv := embed claim
    let hits := nearest score s.index qv candidate_count
    let retained := hits.filter (fun h => relevance_threshold < h.2)
    let ids := retained.map Prod.fst
    let conflicts := retained.filterMap (fun h =>
      match opposingBetween s.relations h.1 ids with
      | none => none
      | some r =>
          match lookupUnit s h.1 with
          | none => none
          | some u => some ⟨u, some r, conflict_explanation r⟩)
    Except.ok ⟨claim, !conflicts.isEmpty, conflicts, []⟩

theorem aci_find?_append_of_none {α : Type} (p : α → Bool) {l₁ : List α}
    (l₂ : List α) (h : l₁.find? p = none) :
    (l₁ ++ l₂).find? p = l₂.find? p := by
  rw [List.find?_append, h, Option.none_or]

theorem aci_find?_append_of_some {α : Type} (p : α → Bool) {l₁ : List α}
    {a : α} (l₂ : List α) (h : l₁.find? p = some a) :
    (l₁ ++ l₂).find? p = some a := by
  rw [List.find?_append, h]
  rfl

/-- C1: ingestion is idempotent. With a fresh idempotency key, non-empty
content and a fresh generated id, the first call stores exactly one new
unit and makes exactly one embedding call, and a second call with the same
key and content returns the very same unit and leaves the state untouched
(so it stores no unit and makes no embedding call), whatever id and
timestamp the second call would have generated. -/
theorem ingest_idempotent (embed : String → List ℚ) (f1 f2 : String)
    (t1 t2 : Nat) (s : EngineState) (content : String) (source : Option String)
    (key : String)
    (hkey : lookupIngestKey s key = none)
    (hcontent : content ≠ "")
    (hfresh : lookupUnit s f1 = none) :
    ∃ u s1,
      ingest_hypothesis embed f1 t1 s content source key = Except.ok (u, s1) ∧
      ingest_hypothesis embed f2 t2 s1 content source key = Except.ok (u, s1) ∧
      s1.units = s.units ++ [u] ∧
      s1.embed_calls = s.embed_calls + 1 := by
  refine ⟨⟨f1, content, source, 1, t1, embed content⟩,
    ⟨s.units ++ [⟨f1, content, source, 1, t1, embed content⟩], s.relations,
     upsertVector s.index f1 (embed content),
     s.ingest_keys ++ [(key, f1)], s.connect_keys, s.embed_calls + 1⟩,
    ?_, ?_, rfl, rfl⟩
  · unfold ingest_hypothesis
    simp only [hkey]
    rw [if_neg hcontent]
  · have hk0 : s.ingest_keys.find? (fun p => p.1 == key) = none := by
      unfold lookupIngestKey at hkey
      exact Option.map_eq_none'.mp hkey
    have hk1 : lookupIngestKey
        ⟨s.units ++ [⟨f1, content, source, 1, t1, embed content⟩], s.relations,
         upsertVector s.index f1 (embed content),
         s.ingest_keys ++ [(key, f1)], s.connect_keys, s.embed_calls + 1⟩
        key = some f1 := by
      unfold lookupIngestKey
      rw [aci_find?_append_of_none _ _ hk0,
        List.find?_cons_of_pos _ (by simp)]
      rfl
    have hu1 : lookupUnit
        ⟨s.units ++ [⟨f1, content, source, 1, t1, embed content⟩], s.relations,
         upsertVector s.index f1 (embed content),
         s.ingest_keys ++ [(key, f1)], s.connect_keys, s.embed_calls + 1⟩
        f1 = some ⟨f1, content, source, 1, t1, embed content⟩ := by
      unfold lookupUnit
      rw [aci_find?_append_of_none _ _ hfresh,
        List.find?_cons_of_pos _ (by simp)]
    unfold ingest_hypothesis
    simp only [hk1, hu1]

/-- Witness for C1 at concrete inputs, starting from the empty engine. -/
theorem ingest_idempotent_witness :
    ∃ u s1,
      ingest_hypothesis (fun _ => [(1 : ℚ)]) "u1" 0 emptyEngine "c" none "k" =
        Except.ok (u, s1) ∧
      ingest_hypothesis (fun _ => [(1 : ℚ)]) "u2" 1 s1 "c" none "k" =
        Except.ok (u, s1) ∧
      s1.units = emptyEngine.units ++ [u] ∧
      s1.embed_calls = emptyEngine.embed_calls + 1 :=
  ingest_idempotent (fun _ => [(1 : ℚ)]) "u1" "u2" 0 1 emptyEngine "c" none "k"
    rfl (by decide) rfl

/-- C4 amended: the `AtomicUnit` schema itself does not validate content
non-emptiness (see `atomicUnit_empty_content_accepted`), but the ingestion
operation rejects empty content with a validation error whenever the call
is not an idempotent replay, and ingestion preserves the invariant that
every stored unit has non-empty content. -/
theorem ingest_rejects_empty_content (embed : String → List ℚ)
    (fid : String) (now : Nat) (s : EngineState) (source : Option String)
    (key : String) :
    (lookupIngestKey s key = none →
      ingest_hypothesis embed fid now s "" source key =
        Except.error (EngineError.validationFailure "content must be non-empty")) ∧
    (∀ content u s', (∀ v ∈ s.units, v.content ≠ "") →
      ingest_hypothesis embed fid now s content source key = Except.ok (u, s') →
      ∀ v ∈ s'.units, v.content ≠ "") := by
  constructor
  · intro hkey
    unfold ingest_hypothesis
    simp only [hkey]
    rw [if_pos trivial]
  · intro content u s' hinv h
    unfold ingest_hypothesis at h
    split at h
    · split at h
      · simp only [Except.ok.injEq, Prod.mk.injEq] at h
        obtain ⟨_, hs⟩ := h
        subst hs
        exact hinv
      · exact Except.noConfusion h
    · split at h
      · exact Except.noConfusion h
      · rename_i hcontent
        simp only [Except.ok.injEq, Prod.mk.injEq] at h
        obtain ⟨_, hs⟩ := h
        subst hs
        intro v hv
        rcases List.mem_append.mp hv with hv | hv
        · exact hinv v hv
        · rcases List.mem_singleton.mp hv with rfl
          exact hcontent

/-- Witness for C4 at concrete inputs: ingesting empty content into the
empty engine fails, and the units stored after ingesting "c" all have
non-empty content. -/
theorem ingest_rejects_empty_content_witness :
    (ingest_hypothesis (fun _ => [(1 : ℚ)]) "u1" 0 emptyEngine "" none "k" =
      Except.error (EngineError.validationFailure "content must be non-empty")) ∧
    (∀ v ∈ (⟨[⟨"u1", "c", none, 1, 0, [(1 : ℚ)]⟩], [], [("u1", [(1 : ℚ)])],
        [("k", "u1")], [], 1⟩ : EngineState).units, v.content ≠ "") :=
  ⟨(ingest_rejects_empty_content (fun _ => [(1 : ℚ)]) "u1" 0 emptyEngine none "k").1 rfl,
   (ingest_rejects_empty_content (fun _ => [(1 : ℚ)]) "u1" 0 emptyEngine none "k").2
     "c" ⟨"u1", "c", none, 1, 0, [(1 : ℚ)]⟩ _ (by simp [emptyEngine]) rfl⟩

/-- Counterexample to C6 as stated: constructing a `Relation` whose source
id equals its target id succeeds — the record schema does not forbid
self-loops. -/
theorem relation_self_loop_accepted :
    mkRelation "a" "a" "supports" "reason" 0 =
      Except.ok ⟨"a", "a", RelationType.supports, "reason", 0⟩ := rfl

/-- A one-unit engine state used as a concrete witness input. -/
def oneUnitState : EngineState :=
  ⟨[⟨"a", "some claim", none, 1, 0, []⟩], [], [], [], [], 0⟩

/-- C6 amended: the `connect_propositions` operation rejects self-loops —
whenever the call is not an idempotent replay, the named unit exists and
the relation type is recognized, connecting a unit to itself fails with a
validation error and (the call returning an error) creates no edge. The
`Relation` record schema itself does not forbid source = target (see
`relation_self_loop_accepted`). -/
theorem connect_rejects_self_loop (now : Nat) (s : EngineState)
    (i ty r k : String)
    (hkey : lookupConnectKey s k = none)
    (hunit : (lookupUnit s i).isSome)
    (hty : (RelationType.ofString ty).isSome) :
    connect_propositions now s i i ty r k =
      Except.error (EngineError.validationFailure "id_a must differ from id_b") := by
  obtain ⟨u, hu⟩ := Option.isSome_iff_exists.mp hunit
  obtain ⟨t, ht⟩ := Option.isSome_iff_exists.mp hty
  unfold connect_propositions
  simp only [hkey, hu, ht, Option.isNone_some, Bool.false_eq_true, if_false]
  rw [if_pos trivial]

/-- Witness for C6 at concrete inputs: connecting unit "a" to itself in a
one-unit engine fails with the self-loop validation error. -/
theorem connect_rejects_self_loop_witness :
    connect_propositions 0 oneUnitState "a" "a" "supports" "r" "k" =
      Except.error (EngineError.validationFailure "id_a must differ from id_b") :=
  connect_rejects_self_loop 0 oneUnitState "a" "supports" "r" "k" rfl rfl rfl

theorem aci_ingest_state_extension (embed : String → List ℚ) (fid : String)
    (now : Nat) (s : EngineState) (content : String) (source : Option String)
    (key : String) (u : AtomicUnit) (s' : EngineState)
    (h : ingest_hypothesis embed fid now s content source key = Except.ok (u, s')) :
    (∃ tl, s'.units = s.units ++ tl) ∧ s'.relations = s.relations := by
  unfold ingest_hypothesis at h
  split at h
  · split at h
    · simp only [Except.ok.injEq, Prod.mk.injEq] at h
      obtain ⟨_, hs⟩ := h
      subst hs
      exact ⟨⟨[], (List.append_nil _).symm⟩, rfl⟩
    · exact Except.noConfusion h
  · split at h
    · exact Except.noConfusion h
    · simp only [Except.ok.injEq, Prod.mk.injEq] at h
      obtain ⟨_, hs⟩ := h
      subst hs
      exact ⟨⟨_, rfl⟩, rfl⟩

theorem aci_connect_state_extension (now : Nat) (s : EngineState)
    (a b ty r k : String) (rel : Relation) (s' : EngineState)
    (h : connect_propositions now s a b ty r k = Except.ok (rel, s')) :
    s'.units = s.units ∧ ∃ tl, s'.relations = s.relations ++ tl := by
  unfold connect_propositions at h
  split at h
  · simp only [Except.ok.injEq, Prod.mk.injEq] at h
    obtain ⟨_, hs⟩ := h
    subst hs
    exact ⟨rfl, ⟨[], (List.append_nil _).symm⟩⟩
  · split at h
    · exact Except.noConfusion h
    · split at h
      · exact Except.noConfusion h
      · split at h
        · exact Except.noConfusion h
        · split at h
          · exact Except.noConfusion h
          · simp only [Except.ok.injEq, Prod.mk.injEq] at h
            obtain ⟨_, hs⟩ := h
            subst hs
            exact ⟨rfl, ⟨_, rfl⟩⟩

/-- C7: stored records are immutable. Whichever mutating operation runs
successfully, the stored sequences only ever grow at the end: every unit
already retrievable by its id is still retrievable unchanged afterwards,
and every stored relation is still stored unchanged afterwards — no
operation edits or deletes an existing unit or relation. -/
theorem records_immutable (embed : String → List ℚ) (fid : String)
    (now : Nat) (s s' : EngineState) (op : Operation)
    (h : applyOp embed fid now s op = Except.ok s') :
    (∃ tl, s'.units = s.units ++ tl) ∧
    (∃ tl, s'.relations = s.relations ++ tl) ∧
    (∀ i u, lookupUnit s i = some u → lookupUnit s' i = some u) := by
  have main : (∃ tl, s'.units = s.units ++ tl) ∧
      (∃ tl, s'.relations = s.relations ++ tl) := by
    cases op with
    | ingest content source key =>
        simp only [applyOp] at h
        cases hi : ingest_hypothesis embed fid now s content source key with
        | error e => rw [hi] at h; exact Except.noConfusion h
        | ok p =>
            rw [hi] at h
            simp only [Except.map, Except.ok.injEq] at h
            subst h
            obtain ⟨hu, hr⟩ := aci_ingest_state_extension embed fid now s
              content source key p.1 p.2 (by rw [hi])
            exact ⟨hu, ⟨[], by rw [hr, List.append_nil]⟩⟩
    | connect a b ty r key =>
        simp only [applyOp] at h
        cases hc : connect_propositions now s a b ty r key with
        | error e => rw [hc] at h; exact Except.noConfusion h
        | ok p =>
            rw [hc] at h
            simp only [Except.map, Except.ok.injEq] at h
            subst h
            obtain ⟨hu, hr⟩ := aci_connect_state_extension now s a b ty r key
              p.1 p.2 (by rw [hc])
            exact ⟨⟨[], by rw [hu, List.append_nil]⟩, hr⟩
  refine ⟨main.1, main.2, ?_⟩
  intro i u hu
  obtain ⟨tl, htl⟩ := main.1
  unfold lookupUnit at hu ⊢
  rw [htl]
  exact aci_find?_append_of_some _ tl hu

/-- Witness for C7 at concrete inputs: ingesting into the empty engine
yields a state extending it, with lookups preserved (vacuously here). -/
theorem records_immutable_witness :
    (∃ tl, (⟨[⟨"u1", "c", none, 1, 0, [(1 : ℚ)]⟩], [], [("u1", [(1 : ℚ)])],
        [("k", "u1")], [], 1⟩ : EngineState).units = emptyEngine.units ++ tl) ∧
    (∃ tl, (⟨[⟨"u1", "c", none, 1, 0, [(1 : ℚ)]⟩], [], [("u1", [(1 : ℚ)])],
        [("k", "u1")], [], 1⟩ : EngineState).relations =
        emptyEngine.relations ++ tl) ∧
    (∀ i u, lookupUnit emptyEngine i = some u →
      lookupUnit (⟨[⟨"u1", "c", none, 1, 0, [(1 : ℚ)]⟩], [], [("u1", [(1 : ℚ)])],
        [("k", "u1")], [], 1⟩ : EngineState) i = some u) :=
  records_immutable (fun _ => [(1 : ℚ)]) "u1" 0 emptyEngine _
    (Operation.ingest "c" none "k") rfl

/-- C9: every conflict reported by `find_contradictions` is annotated with
the opposing relation that justifies it — the relation field is filled with
a relation of kind refutes or contradicts — and the generated explanation
references that relation's stored reasoning text; no reported conflict
lacks its relation. -/
theorem conflicts_annotated (embed : String → List ℚ)
    (score : List ℚ → List ℚ → ℚ) (s : EngineState) (claim : String)
    (resp : ConflictResponse)
    (h : find_contradictions embed score s claim = Except.ok resp) :
    ∀ c ∈ resp.conflicts, ∃ r, c.relation = some r ∧
      (r.type = RelationType.refutes ∨ r.type = RelationType.contradicts) ∧
      c.explanation = conflict_explanation r ∧
      ∃ pre, c.explanation = pre ++ r.reasoning := by
  unfold find_contradictions at h
  split at h
  · exact Except.noConfusion h
  · simp only [Except.ok.injEq] at h
    subst h
    intro c hc
    simp only [List.mem_filterMap] at hc
    obtain ⟨hit, _, hf⟩ := hc
    cases ho : opposingBetween s.relations hit.1
        ((nearest score s.index (embed claim) candidate_count).filter
          (fun h => relevance_threshold < h.2)).unzip.1 with
    | none =>
        rw [show ((nearest score s.index (embed claim)
            candidate_count).filter
            (fun h => relevance_threshold < h.2)).unzip.1 =
            ((nearest score s.index (embed claim)
            candidate_count).filter
            (fun h => relevance_threshold < h.2)).map Prod.fst from
          List.unzip_fst] at ho
        rw [ho] at hf
        exact Option.noConfusion hf
    | some r =>
        rw [show ((nearest score s.index (embed claim)
            candidate_count).filter
            (fun h => relevance_threshold < h.2)).unzip.1 =
            ((nearest score s.index (embed claim)
            candidate_count).filter
            (fun h => relevance_threshold < h.2)).map Prod.fst from
          List.unzip_fst] at ho
        rw [ho] at hf
        cases hu : lookupUnit s hit.1 with
        | none =>
            rw [hu] at hf
            exact Option.noConfusion hf
        | some u =>
            rw [hu] at hf
            simp only [Option.some.injEq] at hf
            subst hf
            refine ⟨r, rfl, ?_, rfl,
              "This unit is opposed by a stored relation: ", rfl⟩
            have hp := List.find?_some ho
            simp only [Bool.and_eq_true] at hp
            have hop := hp.1
            unfold isOpposing at hop
            simp only [Bool.or_eq_true, beq_iff_eq] at hop
            exact hop

/-- Concrete demo engine: two stored units linked by a contradicts edge,
both indexed. -/
def demoState : EngineState :=
  ⟨[⟨"a", "larger models always perform better", none, 1, 0, [(1 : ℚ)]⟩,
    ⟨"b", "smaller specialized models can win", none, 1, 1, [(1 : ℚ)]⟩],
   [⟨"b", "a", RelationType.contradicts, "benchmarks show otherwise", 2⟩],
   [("a", [(1 : ℚ)]), ("b", [(1 : ℚ)])], [], [], 2⟩

/-- The first conflict `find_contradictions` reports on `demoState`. -/
def demoConflict : ConflictResult :=
  ⟨⟨"a", "larger models always perform better", none, 1, 0, [(1 : ℚ)]⟩,
   some ⟨"b", "a", RelationType.contradicts, "benchmarks show otherwise", 2⟩,
   conflict_explanation ⟨"b", "a", RelationType.contradicts,
     "benchmarks show otherwise", 2⟩⟩

/-- The response `find_contradictions` produces on `demoState` for a claim
scored as similar to both stored units. -/
def demoResponse : ConflictResponse :=
  ⟨"model size", true,
   [demoConflict,
    ⟨⟨"b", "smaller specialized models can win", none, 1, 1, [(1 : ℚ)]⟩,
     some ⟨"b", "a", RelationType.contradicts, "benchmarks show otherwise", 2⟩,
     conflict_explanation ⟨"b", "a", RelationType.contradicts,
       "benchmarks show otherwise", 2⟩⟩], []⟩

/-- Witness for C9 at a concrete input: the first conflict reported on
`demoState` carries its opposing relation and reasoning-based explanation. -/
theorem conflicts_annotated_witness :
    ∃ r, demoConflict.relation = some r ∧
      (r.type = RelationType.refutes ∨ r.type = RelationType.contradicts) ∧
      demoConflict.explanation = conflict_explanation r ∧
      ∃ pre, demoConflict.explanation = pre ++ r.reasoning :=
  conflicts_annotated (fun _ => [(1 : ℚ)]) (fun _ _ => 1) demoState
    "model size" demoResponse (by
      unfold find_contradictions nearest opposingBetween isOpposing lookupUnit
      norm_num [demoState, demoResponse, candidate_count, relevance_threshold,
        List.insertionSort, List.orderedInsert, List.filter, List.filterMap,
        conflict_explanation, demoConflict]
      simp)
    demoConflict (by simp [demoResponse])
